import Mathlib

/-
Verification of the MT5 trading bot decision pipeline.

Shallow embedding of the core modules under src/core/: daily_bias.py,
data_resampler.py, indicators.py, m1_state_machine.py, order_manager.py,
exit_manager.py and risk_manager.py. Prices, EMA values and money amounts
are modelled as rationals; times as absolute minute counts; Python dicts
keyed by symbol or (symbol, bot_type) as association lists.
-/

namespace MT5

/-! ## Daily bias (src/core/daily_bias.py) -/

/-- Trading bias, the string values BUY / SELL / NEUTRAL in the source. -/
inductive Bias where
  | buy
  | sell
  | neutral
deriving DecidableEq, Repr

/-- A daily OHLC candle; the fields o, h, l, c mirror the local names
o, h, l, c that compute_bias reads from the candle dict. -/
structure Candle where
  o : ℚ
  h : ℚ
  l : ℚ
  c : ℚ
deriving DecidableEq, Repr

/-- DailyBiasService.compute_bias: wick and body analysis of the prior
daily candle, returning the bias and the optional level50 stop level. -/
def compute_bias (eps : ℚ) (y : Candle) : Bias × Option ℚ :=
  let o := y.o
  let h := y.h
  let l := y.l
  let c := y.c
  let body := |c - o|
  let upper_wick := h - max o c
  let lower_wick := min o c - l
  let longest_wick := max upper_wick lower_wick
  let is_small_body := longest_wick > body
  if ¬ is_small_body then
    (Bias.neutral, none)
  else if lower_wick > upper_wick * (1 + eps) then
    (Bias.sell, some (min o c - (1 / 2) * lower_wick))
  else if upper_wick > lower_wick * (1 + eps) then
    (Bias.buy, none)
  else
    (Bias.neutral, none)

/-! ## Risk gates: spread check (src/core/risk_manager.py) -/

/-- Result of RiskManager._check_spread; the source returns a dict with
keys allowed, spread and max (spread and max absent when symbol info is
unavailable). The reason string carries the same spread and max numbers. -/
structure SpreadGate where
  allowed : Bool
  spread : Option ℚ
  maxPips : Option ℚ
deriving DecidableEq, Repr

/-- RiskManager._check_spread: symbolInfo carries (spread_points, point)
when the connector returns symbol info. Pips are points scaled by
point / 0.0001. -/
def check_spread (max_spread_pips : ℚ) (symbolInfo : Option (ℚ × ℚ)) : SpreadGate :=
  match symbolInfo with
  | none => { allowed := false, spread := none, maxPips := none }
  | some (spread_points, point) =>
      let spread_pips := spread_points * point / (1 / 10000)
      { allowed := decide (spread_pips ≤ max_spread_pips)
        spread := some spread_pips
        maxPips := some max_spread_pips }

/-! ## EMA (src/core/indicators.py) -/

/-- Recurrence part of IndicatorCalculator.calculate_ema: given the
multiplier k and the previous EMA value, fold over the remaining prices
with ema = price * k + prev * (1 - k). -/
def emaFrom (k : ℚ) (prev : ℚ) : List ℚ → List ℚ
  | [] => []
  | p :: ps =>
      let e := p * k + prev * (1 - k)
      e :: emaFrom k e ps

/-- IndicatorCalculator.calculate_ema: returns a list aligned with the
prices, none standing for the NaN fill of the first period - 1 slots.
The multiplier is the hardcoded 2.0 / (period + 1) of the source. -/
def calculate_ema (prices : List ℚ) (period : ℕ) : List (Option ℚ) :=
  if prices.isEmpty ∨ prices.length < period then
    []
  else
    let k : ℚ := 2 / (period + 1)
    let seed : ℚ := (prices.take period).sum / period
    (List.replicate (period - 1) (none : Option ℚ)) ++
      (some seed :: (emaFrom k seed (prices.drop period)).map some)

/-! ## Resampler (src/core/data_resampler.py) -/

/-- An OHLCV bar. Field op models the dict key named after the candle
opening price (a Lean keyword). time is the bar start time in absolute
minutes; the source holds a timezone-aware datetime, and every claim
about the resampler only reads, buckets and compares these instants,
which the minute count does faithfully for a fixed zone. -/
structure Bar where
  time : ℕ
  op : ℚ
  high : ℚ
  low : ℚ
  close : ℚ
  volume : ℚ
deriving DecidableEq, Repr

/-- Bucket key, mirroring the string key of DataResampler._get_bar_key:
D1 keys carry the trading day (16:00 boundary), intraday keys carry the
calendar date and the bucket start minute within the day. -/
inductive BarKey where
  | d1 (day : ℤ)
  | intraday (date : ℕ) (startMin : ℕ)
deriving DecidableEq, Repr

/-- DataResampler._get_bar_key on a time t in absolute minutes:
hour = t % 1440 / 60, minute = t % 60, date = t / 1440. -/
def get_bar_key (tf_minutes : ℕ) (t : ℕ) : BarKey :=
  if tf_minutes = 1440 then
    BarKey.d1 (if (t % 1440) / 60 < 16 then (t / 1440 : ℤ) - 1 else (t / 1440 : ℤ))
  else
    BarKey.intraday (t / 1440) ((t % 1440) / tf_minutes * tf_minutes)

/-- The in-progress bucket of resample_m1_to_timeframe, the current_bar
dict with its internal _key entry. -/
structure CurBar where
  key : BarKey
  time : ℕ
  op : ℚ
  high : ℚ
  low : ℚ
  close : ℚ
  volume : ℚ
deriving DecidableEq, Repr

/-- Opening a new bucket from an M1 bar. -/
def startBar (tf_minutes : ℕ) (m : Bar) : CurBar :=
  { key := get_bar_key tf_minutes m.time
    time := m.time
    op := m.op
    high := m.high
    low := m.low
    close := m.close
    volume := m.volume }

/-- Merging one more M1 bar into the open bucket: max high, min low, last
close, summed volume, and the time is overwritten with the latest M1 time. -/
def mergeBar (cur : CurBar) (m : Bar) : CurBar :=
  { cur with
    high := max cur.high m.high
    low := min cur.low m.low
    close := m.close
    volume := cur.volume + m.volume
    time := m.time }

/-- DataResampler._finalize_bar: drop the internal key. -/
def finalize_bar (cur : CurBar) : Bar :=
  { time := cur.time
    op := cur.op
    high := cur.high
    low := cur.low
    close := cur.close
    volume := cur.volume }

/-- The loop of resample_m1_to_timeframe after the first bar opened the
first bucket: each M1 bar either merges into the open bucket or closes it
and opens a new one; the final open bucket is emitted at the end. -/
def resampleGo (tf_minutes : ℕ) (cur : CurBar) : List Bar → List Bar
  | [] => [finalize_bar cur]
  | m :: ms =>
      if get_bar_key tf_minutes m.time = cur.key then
        resampleGo tf_minutes (mergeBar cur m) ms
      else
        finalize_bar cur :: resampleGo tf_minutes (startBar tf_minutes m) ms

/-- The TIMEFRAMES table of DataResampler. -/
def TIMEFRAMES (tf : String) : Option ℕ :=
  if tf = "M1" then some 1
  else if tf = "M5" then some 5
  else if tf = "M15" then some 15
  else if tf = "M30" then some 30
  else if tf = "H1" then some 60
  else if tf = "H4" then some 240
  else if tf = "D1" then some 1440
  else none

/-- DataResampler.resample_m1_to_timeframe: empty input or unknown
timeframe give [], M1 passes through, otherwise the bucketing loop runs. -/
def resample_m1_to_timeframe (m1_bars : List Bar) (target_tf : String) : List Bar :=
  match m1_bars, TIMEFRAMES target_tf with
  | [], _ => []
  | _ :: _, none => []
  | b :: bs, some tf_minutes =>
      if target_tf = "M1" then b :: bs
      else resampleGo tf_minutes (startBar tf_minutes b) bs

/-- Left edge of the intraday bucket containing minute t, in absolute
minutes: what the spec calls the bucket left edge. -/
def intradayLeftEdge (tf_minutes t : ℕ) : ℕ :=
  t / 1440 * 1440 + (t % 1440) / tf_minutes * tf_minutes

/-- The aggregate the spec ascribes to a bucket of M1 bars b :: bs, except
that the emitted time is the time of the last constituent M1 bar (not the
bucket left edge): first open, max high, min low, last close, summed
volume. -/
def bucketAgg (b : Bar) (bs : List Bar) : Bar :=
  { time := (bs.map Bar.time).getLastD b.time
    op := b.op
    high := bs.foldl (fun a x => max a x.high) b.high
    low := bs.foldl (fun a x => min a x.low) b.low
    close := (bs.map Bar.close).getLastD b.close
    volume := bs.foldl (fun a x => a + x.volume) b.volume }

theorem resampleGo_ne_nil (tf : ℕ) (cur : CurBar) (l : List Bar) :
    resampleGo tf cur l ≠ [] := by
  induction l generalizing cur with
  | nil => simp [resampleGo]
  | cons m ms ih =>
      rw [resampleGo]
      split
      · exact ih _
      · simp

theorem resampleGo_dropLast_prefix_append (tf : ℕ) (l f : List Bar) (cur : CurBar) :
    (resampleGo tf cur l).dropLast <+: resampleGo tf cur (l ++ f) := by
  induction l generalizing cur with
  | nil =>
      simp [resampleGo]
  | cons m ms ih =>
      rw [List.cons_append, resampleGo, resampleGo]
      split
      · exact ih _
      · rw [List.dropLast_cons_of_ne_nil (resampleGo_ne_nil tf _ ms)]
        obtain ⟨t, ht⟩ := ih (startBar tf m)
        exact ⟨t, by rw [List.cons_append, ht]⟩

theorem mergeBar_key (cur : CurBar) (m : Bar) : (mergeBar cur m).key = cur.key := rfl

theorem resampleGo_all_same_key (tf : ℕ) (bs : List Bar) (cur : CurBar)
    (h : ∀ x ∈ bs, get_bar_key tf x.time = cur.key) :
    resampleGo tf cur bs = [finalize_bar (bs.foldl mergeBar cur)] := by
  induction bs generalizing cur with
  | nil => simp [resampleGo]
  | cons m ms ih =>
      rw [resampleGo, if_pos (h m (by simp)), List.foldl_cons]
      exact ih (mergeBar cur m) (fun x hx => by
        rw [mergeBar_key]; exact h x (by simp [hx]))

theorem foldl_mergeBar_key (bs : List Bar) (cur : CurBar) :
    (bs.foldl mergeBar cur).key = cur.key := by
  induction bs generalizing cur with
  | nil => rfl
  | cons m ms ih => rw [List.foldl_cons, ih]; rfl

theorem foldl_mergeBar_op (bs : List Bar) (cur : CurBar) :
    (bs.foldl mergeBar cur).op = cur.op := by
  induction bs generalizing cur with
  | nil => rfl
  | cons m ms ih => rw [List.foldl_cons, ih]; rfl

theorem foldl_mergeBar_time (bs : List Bar) (cur : CurBar) :
    (bs.foldl mergeBar cur).time = (bs.map Bar.time).getLastD cur.time := by
  induction bs generalizing cur with
  | nil => rfl
  | cons m ms ih => rw [List.foldl_cons, ih, List.map_cons, List.getLastD_cons]; rfl

theorem foldl_mergeBar_close (bs : List Bar) (cur : CurBar) :
    (bs.foldl mergeBar cur).close = (bs.map Bar.close).getLastD cur.close := by
  induction bs generalizing cur with
  | nil => rfl
  | cons m ms ih => rw [List.foldl_cons, ih, List.map_cons, List.getLastD_cons]; rfl

theorem foldl_mergeBar_high (bs : List Bar) (cur : CurBar) :
    (bs.foldl mergeBar cur).high = bs.foldl (fun a x => max a x.high) cur.high := by
  induction bs generalizing cur with
  | nil => rfl
  | cons m ms ih => rw [List.foldl_cons, ih, List.foldl_cons]; rfl

theorem foldl_mergeBar_low (bs : List Bar) (cur : CurBar) :
    (bs.foldl mergeBar cur).low = bs.foldl (fun a x => min a x.low) cur.low := by
  induction bs generalizing cur with
  | nil => rfl
  | cons m ms ih => rw [List.foldl_cons, ih, List.foldl_cons]; rfl

theorem foldl_mergeBar_volume (bs : List Bar) (cur : CurBar) :
    (bs.foldl mergeBar cur).volume = bs.foldl (fun a x => a + x.volume) cur.volume := by
  induction bs generalizing cur with
  | nil => rfl
  | cons m ms ih => rw [List.foldl_cons, ih, List.foldl_cons]; rfl

/-! ## M1 cross-then-touch state machine (src/core/m1_state_machine.py) -/

/-- An M1 bar as the state machine reads it: high, low, close. -/
structure M1Bar where
  high : ℚ
  low : ℚ
  close : ℚ
deriving DecidableEq, Repr

/-- One call to M1StateMachine.update: the bar list and the aligned
purple (short EMA) and snake (long EMA) series. -/
structure M1Input where
  bars : List M1Bar
  purple : List ℚ
  snake : List ℚ
deriving DecidableEq, Repr

/-- The EntryState enum of the source. -/
inductive EntryState where
  | idle
  | crossed_up
  | crossed_down
  | ready_buy
  | ready_sell
  | executed
deriving DecidableEq, Repr

/-- Per-symbol state dict of M1StateMachine: state, cross_bar_index,
cross_direction, ready_bar_index. -/
structure MState where
  state : EntryState
  cross_bar_index : ℤ
  cross_direction : Option String
  ready_bar_index : ℤ
deriving DecidableEq, Repr

/-- The fresh per-symbol state the source installs on first update (and
on reset). -/
def freshState : MState :=
  { state := .idle, cross_bar_index := -1, cross_direction := none, ready_bar_index := -1 }

/-- The early-return guards of M1StateMachine.update: fewer than two bars,
an empty EMA series, or misaligned lengths. -/
def badInput (inp : M1Input) : Bool :=
  inp.bars.length < 2 || inp.purple.isEmpty || inp.snake.isEmpty ||
    inp.bars.length != inp.purple.length || inp.bars.length != inp.snake.length

/-- The state machine logic of M1StateMachine.update on the last and
second-to-last bars, after the guards passed. -/
def stepCore (max_bars_between : ℕ) (s : MState) (inp : M1Input) : MState :=
  let last_idx : ℕ := inp.bars.length - 1
  let prev_idx : ℕ := last_idx - 1
  let curr_bar := inp.bars.getD last_idx ⟨0, 0, 0⟩
  let prev_bar := inp.bars.getD prev_idx ⟨0, 0, 0⟩
  let curr_close := curr_bar.close
  let curr_high := curr_bar.high
  let curr_low := curr_bar.low
  let prev_close := prev_bar.close
  let curr_purple := inp.purple.getD last_idx 0
  let prev_purple := inp.purple.getD prev_idx 0
  let curr_snake := inp.snake.getD last_idx 0
  match s.state with
  | .idle =>
      if prev_close < prev_purple ∧ curr_close > curr_purple then
        { s with state := .crossed_up, cross_bar_index := last_idx, cross_direction := some "up" }
      else if prev_close > prev_purple ∧ curr_close < curr_purple then
        { s with state := .crossed_down, cross_bar_index := last_idx, cross_direction := some "down" }
      else s
  | .crossed_up =>
      let bars_since_cross : ℤ := (last_idx : ℤ) - s.cross_bar_index
      if bars_since_cross > max_bars_between then
        { s with state := .idle, cross_bar_index := -1 }
      else if curr_low ≤ curr_purple ∧ curr_purple ≤ curr_high then
        if curr_close ≥ curr_purple ∧ curr_close ≥ curr_snake then
          { s with state := .ready_buy, ready_bar_index := last_idx }
        else
          { s with state := .idle, cross_bar_index := -1 }
      else if curr_close < curr_purple then
        { s with state := .idle, cross_bar_index := -1 }
      else s
  | .crossed_down =>
      let bars_since_cross : ℤ := (last_idx : ℤ) - s.cross_bar_index
      if bars_since_cross > max_bars_between then
        { s with state := .idle, cross_bar_index := -1 }
      else if curr_low ≤ curr_purple ∧ curr_purple ≤ curr_high then
        if curr_close ≤ curr_purple ∧ curr_close < curr_snake then
          { s with state := .ready_sell, ready_bar_index := last_idx }
        else
          { s with state := .idle, cross_bar_index := -1 }
      else if curr_close > curr_purple then
        { s with state := .idle, cross_bar_index := -1 }
      else s
  | .ready_buy => s
  | .ready_sell => s
  | .executed => s

/-- M1StateMachine.update for one symbol: none models the symbol being
absent from the states dict; a call that passes the guards installs the
fresh state if needed and runs the logic. -/
def m1Update (max_bars_between : ℕ) (m : Option MState) (inp : M1Input) : Option MState :=
  if badInput inp then m
  else some (stepCore max_bars_between (m.getD freshState) inp)

/-- M1StateMachine.mark_executed for one symbol: sets EXECUTED when the
symbol has a state, no-op otherwise. -/
def mark_executed (m : Option MState) : Option MState :=
  m.map fun s => { s with state := .executed }

/-- M1StateMachine.reset for one symbol: reinstalls the fresh IDLE state
when the symbol has one, no-op otherwise. -/
def resetMachine (m : Option MState) : Option MState :=
  m.map fun _ => freshState

/-- A sequence of update calls starting from the empty states dict. -/
def runUpdates (max_bars_between : ℕ) (inps : List M1Input) : Option MState :=
  inps.foldl (m1Update max_bars_between) none

/-- The touch and directional conditions of the READY_BUY transition, read
off the input of one update call at index j: the bar touches the purple
EMA (low ≤ purple ≤ high), closes at or above it and at or above the
snake EMA. -/
def readyBuyBarOk (inp : M1Input) (j : ℤ) : Prop :=
  0 ≤ j ∧ j.toNat < inp.bars.length ∧ j.toNat < inp.purple.length ∧ j.toNat < inp.snake.length ∧
  (inp.bars.getD j.toNat ⟨0, 0, 0⟩).low ≤ inp.purple.getD j.toNat 0 ∧
  inp.purple.getD j.toNat 0 ≤ (inp.bars.getD j.toNat ⟨0, 0, 0⟩).high ∧
  (inp.bars.getD j.toNat ⟨0, 0, 0⟩).close ≥ inp.purple.getD j.toNat 0 ∧
  (inp.bars.getD j.toNat ⟨0, 0, 0⟩).close ≥ inp.snake.getD j.toNat 0

theorem stepCore_fixed (mb : ℕ) (s : MState) (inp : M1Input)
    (h : s.state = .ready_buy ∨ s.state = .ready_sell ∨ s.state = .executed) :
    stepCore mb s inp = s := by
  rcases h with h | h | h <;> simp [stepCore, h]

theorem m1Update_fixed (mb : ℕ) (s : MState) (inp : M1Input)
    (h : s.state = .ready_buy ∨ s.state = .ready_sell ∨ s.state = .executed) :
    m1Update mb (some s) inp = some s := by
  unfold m1Update
  split
  · rfl
  · rw [Option.getD_some, stepCore_fixed mb s inp h]

theorem stepCore_ready_buy (mb : ℕ) (s : MState) (inp : M1Input)
    (hns : s.state ≠ .ready_buy)
    (h : (stepCore mb s inp).state = .ready_buy) :
    (stepCore mb s inp).ready_bar_index = ((inp.bars.length - 1 : ℕ) : ℤ) ∧
    (inp.bars.getD (inp.bars.length - 1) ⟨0, 0, 0⟩).low ≤ inp.purple.getD (inp.bars.length - 1) 0 ∧
    inp.purple.getD (inp.bars.length - 1) 0 ≤ (inp.bars.getD (inp.bars.length - 1) ⟨0, 0, 0⟩).high ∧
    (inp.bars.getD (inp.bars.length - 1) ⟨0, 0, 0⟩).close ≥ inp.purple.getD (inp.bars.length - 1) 0 ∧
    (inp.bars.getD (inp.bars.length - 1) ⟨0, 0, 0⟩).close ≥ inp.snake.getD (inp.bars.length - 1) 0 := by
  cases hstate : s.state with
  | idle =>
      simp only [stepCore, hstate] at h ⊢
      split_ifs at h with h1 h2
      all_goals simp_all
  | crossed_up =>
      simp only [stepCore, hstate] at h ⊢
      split_ifs at h ⊢ with h1 h2 h3 h4 <;> simp_all
  | crossed_down =>
      simp only [stepCore, hstate] at h ⊢
      split_ifs at h with h1 h2 h3 h4
      all_goals simp_all
  | ready_buy => exact absurd hstate hns
  | ready_sell =>
      simp only [stepCore, hstate] at h
      simp_all
  | executed =>
      simp only [stepCore, hstate] at h
      simp_all

theorem m1Update_ready_buy (mb : ℕ) (m : Option MState) (inp : M1Input) (s' : MState)
    (hupd : m1Update mb m inp = some s')
    (hs' : s'.state = .ready_buy)
    (hnot : ∀ s0, m = some s0 → s0.state ≠ .ready_buy) :
    s'.ready_bar_index = ((inp.bars.length - 1 : ℕ) : ℤ) ∧ readyBuyBarOk inp s'.ready_bar_index := by
  unfold m1Update at hupd
  split at hupd
  · exact absurd hs' (hnot s' hupd)
  · next hbad =>
      have hlen : 2 ≤ inp.bars.length ∧ inp.bars.length = inp.purple.length ∧
          inp.bars.length = inp.snake.length := by
        simp only [badInput, Bool.or_eq_true, decide_eq_true_eq, List.isEmpty_iff,
          bne_iff_ne, ne_eq, not_or, not_lt, not_not] at hbad
        obtain ⟨⟨⟨⟨hge, hpe⟩, hse⟩, heq1⟩, heq2⟩ := hbad
        exact ⟨hge, heq1, heq2⟩
      have hns : (m.getD freshState).state ≠ .ready_buy := by
        cases m with
        | none => simp [freshState]
        | some s0 => exact hnot s0 rfl
      have hs'' : s' = stepCore mb (m.getD freshState) inp := (Option.some_inj.mp hupd).symm
      obtain ⟨hidx, hc1, hc2, hc3, hc4⟩ :=
        stepCore_ready_buy mb (m.getD freshState) inp hns (by rw [← hs'']; exact hs')
      rw [← hs''] at hidx
      have hlt : inp.bars.length - 1 < inp.bars.length := by omega
      refine ⟨hidx, ?_⟩
      rw [hidx]
      refine ⟨by positivity, ?_, ?_, ?_, ?_, ?_, ?_, ?_⟩ <;>
        simp only [Int.toNat_natCast] <;>
        first
          | omega
          | exact hc1
          | exact hc2
          | exact hc3
          | exact hc4

/-- Invariant carried through a sequence of update calls: a READY_BUY
state points back, through ready_bar_index, at the last bar of the input
of the update that set it, and that bar satisfied the touch and
directional conditions. -/
theorem runUpdates_ready_buy_aux (mb : ℕ) (inps : List M1Input) (m : Option MState)
    (s : MState) (hrun : inps.foldl (m1Update mb) m = some s)
    (hs : s.state = .ready_buy) :
    (∃ inp ∈ inps, s.ready_bar_index = ((inp.bars.length - 1 : ℕ) : ℤ) ∧
      readyBuyBarOk inp s.ready_bar_index) ∨ m = some s := by
  induction inps generalizing m with
  | nil => exact Or.inr hrun
  | cons inp rest ih =>
      rw [List.foldl_cons] at hrun
      rcases ih (m1Update mb m inp) hrun with hex | heq
      · obtain ⟨inp0, hmem, hconc⟩ := hex
        exact Or.inl ⟨inp0, List.mem_cons_of_mem _ hmem, hconc⟩
      · by_cases hm : ∀ s0, m = some s0 → s0.state ≠ .ready_buy
        · exact Or.inl ⟨inp, List.mem_cons_self _ _,
            m1Update_ready_buy mb m inp s heq hs hm⟩
        · push_neg at hm
          obtain ⟨s0, hm0, hs0⟩ := hm
          have : m1Update mb m inp = m := by
            rw [hm0]; exact m1Update_fixed mb s0 inp (Or.inl hs0)
          rw [this] at heq
          exact Or.inr heq

/-- C4: in every state of the M1 state machine reachable by a sequence of
update calls, READY_BUY implies that some update call in the sequence set
it on its last bar (recorded in ready_bar_index): that bar touched the
short EMA (low ≤ short_ema ≤ high) and closed at or above both the short
and the long EMA. -/
theorem c4_ready_buy_invariant (mb : ℕ) (inps : List M1Input) (s : MState)
    (hrun : runUpdates mb inps = some s) (hs : s.state = .ready_buy) :
    ∃ inp ∈ inps, s.ready_bar_index = ((inp.bars.length - 1 : ℕ) : ℤ) ∧
      readyBuyBarOk inp s.ready_bar_index := by
  rcases runUpdates_ready_buy_aux mb inps none s hrun hs with h | h
  · exact h
  · simp at h

/-- Concrete update input: upward cross of the short EMA on the last bar. -/
def inpA : M1Input :=
  { bars := [⟨1, 0, 0⟩, ⟨3, 1, 3⟩], purple := [1, 2], snake := [0, 0] }

/-- Concrete update input: the following bar touches the short EMA and
closes at or above both EMAs. -/
def inpB : M1Input :=
  { bars := [⟨1, 0, 0⟩, ⟨3, 1, 3⟩, ⟨3, 1, 2⟩], purple := [1, 2, 2], snake := [0, 0, 0] }

/-- The READY_BUY state the two concrete updates reach. -/
def sC4 : MState :=
  { state := .ready_buy, cross_bar_index := 1, cross_direction := some "up",
    ready_bar_index := 2 }

/-- Witness for C4: a concrete two-update trace reaching READY_BUY, with
the invariant instantiated there. -/
theorem c4_ready_buy_invariant_witness :
    runUpdates 20 [inpA, inpB] = some sC4 ∧ sC4.state = .ready_buy ∧
    (∃ inp ∈ [inpA, inpB], sC4.ready_bar_index = ((inp.bars.length - 1 : ℕ) : ℤ) ∧
      readyBuyBarOk inp sC4.ready_bar_index) :=
  ⟨by decide, rfl, c4_ready_buy_invariant 20 [inpA, inpB] sC4 (by decide) rfl⟩

/-- C9: READY_BUY and READY_SELL are fixed points of update; mark_executed
sends them to EXECUTED and reset to the fresh IDLE state; EXECUTED is a
fixed point of update and of mark_executed, so only reset leaves it. -/
theorem c9_ready_executed_transitions :
    (∀ (mb : ℕ) (s : MState) (inp : M1Input),
        s.state = .ready_buy ∨ s.state = .ready_sell → m1Update mb (some s) inp = some s) ∧
    (∀ s : MState, s.state = .ready_buy ∨ s.state = .ready_sell →
        mark_executed (some s) = some { s with state := .executed }) ∧
    (∀ s : MState, resetMachine (some s) = some freshState) ∧
    freshState.state = .idle ∧
    (∀ (mb : ℕ) (s : MState) (inp : M1Input), s.state = .executed →
        m1Update mb (some s) inp = some s) ∧
    (∀ s : MState, s.state = .executed → mark_executed (some s) = some s) := by
  refine ⟨?_, ?_, ?_, rfl, ?_, ?_⟩
  · intro mb s inp h
    rcases h with h | h
    · exact m1Update_fixed mb s inp (Or.inl h)
    · exact m1Update_fixed mb s inp (Or.inr (Or.inl h))
  · intro s _
    rfl
  · intro s
    rfl
  · intro mb s inp h
    exact m1Update_fixed mb s inp (Or.inr (Or.inr h))
  · intro s h
    cases s
    simp_all [mark_executed]

/-- Empty update input, rejected by the guards of update. -/
def inpE : M1Input := { bars := [], purple := [], snake := [] }

/-- An EXECUTED state. -/
def sEx : MState :=
  { state := .executed, cross_bar_index := -1, cross_direction := some "up",
    ready_bar_index := 2 }

/-- Witness for C9 at a concrete READY_BUY state and a concrete EXECUTED
state. -/
theorem c9_ready_executed_transitions_witness :
    (sC4.state = .ready_buy ∨ sC4.state = .ready_sell) ∧
    m1Update 20 (some sC4) inpE = some sC4 ∧
    mark_executed (some sC4) = some { sC4 with state := .executed } ∧
    resetMachine (some sC4) = some freshState ∧
    sEx.state = .executed ∧
    m1Update 20 (some sEx) inpE = some sEx ∧
    mark_executed (some sEx) = some sEx :=
  ⟨Or.inl rfl,
   c9_ready_executed_transitions.1 20 sC4 inpE (Or.inl rfl),
   c9_ready_executed_transitions.2.1 sC4 (Or.inl rfl),
   c9_ready_executed_transitions.2.2.1 sC4,
   rfl,
   c9_ready_executed_transitions.2.2.2.2.1 20 sEx inpE rfl,
   c9_ready_executed_transitions.2.2.2.2.2 sEx rfl⟩

/-- Concrete M1 bar at minute 0 of the first M5 bucket. -/
def b0x : Bar := { time := 0, op := 1, high := 1, low := 1, close := 1, volume := 1 }

/-- Concrete M1 bar at minute 1 of the same M5 bucket, with a different
close than b0x. -/
def b1x : Bar := { time := 1, op := 2, high := 2, low := 1, close := 2, volume := 1 }

/-! ## Theorems for claims C2, C6 -/

/-- C2, counterexample: the claim that resample(S, tf) is a prefix of
resample(S ++ F, tf) fails on S = [bar at minute 0], F = [bar at minute 1],
tf = M5: the single M1 bar already emits the still-forming M5 bucket, and
the extension changes that bucket (close 1 becomes close 2, time 0 becomes
time 1), so the first output is not a prefix of the second. -/
theorem c2_resample_not_prefix_stable :
    ¬ (resample_m1_to_timeframe [b0x] "M5" <+:
        resample_m1_to_timeframe ([b0x] ++ [b1x]) "M5") := by
  intro h
  obtain ⟨t, ht⟩ := h
  simp [resample_m1_to_timeframe, TIMEFRAMES, resampleGo, startBar, mergeBar,
    finalize_bar, get_bar_key, b0x, b1x] at ht

/-- C2, amended: every bucket the resampler emits except the trailing one
is final: for every M1 sequence S, target timeframe and extension F,
resample(S, tf) with its last bar dropped is a prefix of
resample(S ++ F, tf). The trailing bucket is emitted while still forming
(downstream code drops it again via get_latest_closed_bar, which returns
the second-to-last bar). -/
theorem c2_amended_resample_dropLast_prefix_stable (tf : String) (S F : List Bar) :
    (resample_m1_to_timeframe S tf).dropLast <+: resample_m1_to_timeframe (S ++ F) tf := by
  cases S with
  | nil => simp [resample_m1_to_timeframe]
  | cons b bs =>
      rw [List.cons_append]
      unfold resample_m1_to_timeframe
      cases hTF : TIMEFRAMES tf with
      | none => simp
      | some tf_minutes =>
          show (if tf = "M1" then b :: bs
              else resampleGo tf_minutes (startBar tf_minutes b) bs).dropLast <+:
            (if tf = "M1" then b :: (bs ++ F)
              else resampleGo tf_minutes (startBar tf_minutes b) (bs ++ F))
          by_cases hM1 : tf = "M1"
          · rw [if_pos hM1, if_pos hM1, List.dropLast_eq_take]
            exact (List.take_prefix _ _).trans ((b :: bs).prefix_append F)
          · rw [if_neg hM1, if_neg hM1]
            exact resampleGo_dropLast_prefix_append tf_minutes bs F (startBar tf_minutes b)

/-- C6, counterexample: for the M5 bucket fed with the M1 bars at minutes
0 and 1, the emitted bar carries time 1, the time of the last constituent
M1 bar, not the bucket left edge 0: the start_time clause of the claim
fails. -/
theorem c6_emitted_time_is_last_bar_not_left_edge :
    (resample_m1_to_timeframe [b0x, b1x] "M5").map Bar.time = [b1x.time] ∧
    (resample_m1_to_timeframe [b0x, b1x] "M5").map Bar.time ≠ [intradayLeftEdge 5 b0x.time] := by
  constructor
  · simp [resample_m1_to_timeframe, TIMEFRAMES, resampleGo, startBar, mergeBar,
      finalize_bar, get_bar_key, b0x, b1x]
  · simp [resample_m1_to_timeframe, TIMEFRAMES, resampleGo, startBar, mergeBar,
      finalize_bar, get_bar_key, intradayLeftEdge, b0x, b1x]

/-- C6, amended: a bucket accumulating the consecutive same-key M1 bars
b :: bs is emitted as exactly one bar with open = first open, close = last
close, high = max of the highs, low = min of the lows, volume = summed
volume, and time equal to the time of the LAST constituent M1 bar (the
source overwrites the bucket time with each merged bar; the left-edge
clause of the claim is dropped). -/
theorem c6_amended_bucket_aggregation (tf_minutes : ℕ) (b : Bar) (bs : List Bar)
    (h : ∀ x ∈ bs, get_bar_key tf_minutes x.time = get_bar_key tf_minutes b.time) :
    resampleGo tf_minutes (startBar tf_minutes b) bs = [bucketAgg b bs] := by
  rw [resampleGo_all_same_key tf_minutes bs _ h]
  simp only [finalize_bar, bucketAgg, foldl_mergeBar_time, foldl_mergeBar_op,
    foldl_mergeBar_close, foldl_mergeBar_high, foldl_mergeBar_low,
    foldl_mergeBar_volume, startBar]

/-- Witness for the amended C6 theorem, at the two-bar M5 bucket b0x, b1x. -/
theorem c6_amended_bucket_aggregation_witness :
    (∀ x ∈ [b1x], get_bar_key 5 x.time = get_bar_key 5 b0x.time) ∧
    resampleGo 5 (startBar 5 b0x) [b1x] = [bucketAgg b0x [b1x]] :=
  ⟨by decide, c6_amended_bucket_aggregation 5 b0x [b1x] (by decide)⟩

/-! ## Association-list model of Python dicts -/

section AssocMap

variable {K V : Type} [DecidableEq K]

/-- Dict assignment d[k] = v: replace the binding in place when the key is
present, append it otherwise. -/
def setKey (m : List (K × V)) (k : K) (v : V) : List (K × V) :=
  if m.any (fun kv => kv.1 = k) then
    m.map (fun kv => if kv.1 = k then (k, v) else kv)
  else
    m ++ [(k, v)]

/-- Dict deletion del d[k]. -/
def delKey (m : List (K × V)) (k : K) : List (K × V) :=
  m.filter (fun kv => kv.1 ≠ k)

/-- Dict lookup d.get(k). -/
def lookupKey (m : List (K × V)) (k : K) : Option V :=
  (m.find? (fun kv => kv.1 = k)).map Prod.snd

/-- A dict holds at most one entry per key. -/
def KeysNodup (m : List (K × V)) : Prop :=
  (m.map Prod.fst).Nodup

instance (m : List (K × V)) : Decidable (KeysNodup m) := by
  unfold KeysNodup
  infer_instance

theorem keysNodup_setKey (m : List (K × V)) (k : K) (v : V) (h : KeysNodup m) :
    KeysNodup (setKey m k v) := by
  unfold setKey
  split
  · next hany =>
      have : (m.map (fun kv => if kv.1 = k then (k, v) else kv)).map Prod.fst =
          m.map Prod.fst := by
        rw [List.map_map]
        apply List.map_congr_left
        intro kv _
        by_cases hk : kv.1 = k
        · simp [hk]
        · simp [hk]
      unfold KeysNodup
      rw [this]
      exact h
  · next hany =>
      have hnot : k ∉ m.map Prod.fst := by
        intro hk
        obtain ⟨kv, hkv, hfst⟩ := List.mem_map.mp hk
        apply hany
        rw [List.any_eq_true]
        exact ⟨kv, hkv, by simp [hfst]⟩
      unfold KeysNodup
      rw [List.map_append]
      simp only [List.map_cons, List.map_nil]
      rw [List.nodup_append]
      exact ⟨h, List.nodup_singleton k, by simpa using fun hk => hnot hk⟩

omit [DecidableEq K] in
theorem keysNodup_filter (m : List (K × V)) (p : K × V → Bool) (h : KeysNodup m) :
    KeysNodup (m.filter p) := by
  unfold KeysNodup at h ⊢
  exact List.Nodup.sublist ((List.filter_sublist m).map Prod.fst) h

theorem keysNodup_delKey (m : List (K × V)) (k : K) (h : KeysNodup m) :
    KeysNodup (delKey m k) :=
  keysNodup_filter m _ h

end AssocMap

/-! ## Order manager (src/core/order_manager.py) -/

/-- A tracked open position: the dict the order manager stores per
(symbol, bot_type). The field ptype models the dict key named type. -/
structure Position where
  ticket : ℕ
  ptype : String
  entry_price : ℚ
  lot_size : ℚ
  tp : ℚ
  sl : ℚ
deriving DecidableEq, Repr

/-- A broker tick: bid and ask. -/
structure Tick where
  bid : ℚ
  ask : ℚ
deriving DecidableEq, Repr

/-- The slice of broker symbol info the order manager reads. -/
structure SymbolInfoOM where
  point : ℚ
  trade_contract_size : ℚ
deriving DecidableEq, Repr

/-- The slice of the order_send result the order manager reads. -/
structure OrderSendResult where
  retcode : ℕ
  order : ℕ
  price : ℚ
deriving DecidableEq, Repr

/-- mt5.TRADE_RETCODE_DONE. -/
def TRADE_RETCODE_DONE : ℕ := 10009

/-- The open-position map: (symbol, bot_type) to position, flattening the
nested symbol-then-bot dict of the source. -/
def PosMap : Type := List ((String × String) × Position)

/-- OrderManager.execute_buy, with the broker interactions (current tick,
symbol info, order_send result) passed in as inputs; only a DONE retcode
records the position under (symbol, bot_type). -/
def execute_buy (lot_size trade_target_usd : ℚ) (st : PosMap)
    (symbol bot_type : String) (tick : Option Tick) (info : Option SymbolInfoOM)
    (send : Option OrderSendResult) : PosMap :=
  match tick with
  | none => st
  | some t =>
      match info with
      | none => st
      | some si =>
          let price := t.ask
          let tp_distance := trade_target_usd / (si.trade_contract_size * lot_size)
          let tp_price := price + tp_distance
          let sl_price := price - tp_distance * 3
          match send with
          | none => st
          | some r =>
              if r.retcode ≠ TRADE_RETCODE_DONE then st
              else
                setKey st (symbol, bot_type)
                  { ticket := r.order, ptype := "BUY", entry_price := r.price,
                    lot_size := lot_size, tp := tp_price, sl := sl_price }

/-- OrderManager.execute_sell, mirror image of execute_buy. -/
def execute_sell (lot_size trade_target_usd : ℚ) (st : PosMap)
    (symbol bot_type : String) (tick : Option Tick) (info : Option SymbolInfoOM)
    (send : Option OrderSendResult) : PosMap :=
  match tick with
  | none => st
  | some t =>
      match info with
      | none => st
      | some si =>
          let price := t.bid
          let tp_distance := trade_target_usd / (si.trade_contract_size * lot_size)
          let tp_price := price - tp_distance
          let sl_price := price + tp_distance * 3
          match send with
          | none => st
          | some r =>
              if r.retcode ≠ TRADE_RETCODE_DONE then st
              else
                setKey st (symbol, bot_type)
                  { ticket := r.order, ptype := "SELL", entry_price := r.price,
                    lot_size := lot_size, tp := tp_price, sl := sl_price }

/-- OrderManager.close_position: an untracked key is a no-op; a ticket the
broker no longer reports is purged; otherwise the close order must come
back DONE for the entry to be removed. -/
def close_position (st : PosMap) (symbol bot_type : String)
    (mt5_has_ticket : ℕ → Bool) (tick : Option Tick)
    (send : Option OrderSendResult) : PosMap :=
  match lookupKey st (symbol, bot_type) with
  | none => st
  | some position =>
      if ¬ mt5_has_ticket position.ticket then delKey st (symbol, bot_type)
      else
        match tick with
        | none => st
        | some _ =>
            match send with
            | none => st
            | some r =>
                if r.retcode ≠ TRADE_RETCODE_DONE then st
                else delKey st (symbol, bot_type)

/-- OrderManager.sync_with_mt5: none models mt5.positions_get() returning
None (no-op); otherwise every tracked entry whose ticket the broker no
longer lists is dropped. -/
def sync_with_mt5 (st : PosMap) (mt5_tickets : Option (List ℕ)) : PosMap :=
  match mt5_tickets with
  | none => st
  | some ts => st.filter (fun kv => kv.2.ticket ∈ ts)

/-! ## Exit manager (src/core/exit_manager.py) -/

/-- ExitManager._check_m5_purple_break: with early exit enabled, a BUY
position signals an exit iff the latest M5 close is strictly below the M5
purple EMA, a SELL position iff strictly above. -/
def check_m5_purple_break (early_exit_enabled : Bool) (position_type : String)
    (m5_close m5_purple : ℚ) : Option String :=
  if ¬ early_exit_enabled then none
  else if position_type = "BUY" then
    if m5_close < m5_purple then some "M5_PURPLE_BREAK" else none
  else if position_type = "SELL" then
    if m5_close > m5_purple then some "M5_PURPLE_BREAK" else none
  else none

/-- ExitManager.check_exits: the bot types whose open position the monitor
closes, given the latest M5 close and purple values (none when the M5
series is too short for either). -/
def check_exits (early_exit_enabled : Bool) (open_positions : List (String × Position))
    (close_latest purple_latest : Option ℚ) : List String :=
  match open_positions with
  | [] => []
  | _ :: _ =>
      match close_latest, purple_latest with
      | some c, some p =>
          (open_positions.filter
              (fun bp => (check_m5_purple_break early_exit_enabled bp.2.ptype c p).isSome)).map
            Prod.fst
      | _, _ => []

theorem check_m5_purple_break_isSome (t : String) (c p : ℚ) :
    (check_m5_purple_break true t c p).isSome = true ↔
      ((t = "BUY" ∧ c < p) ∨ (t = "SELL" ∧ c > p)) := by
  unfold check_m5_purple_break
  split_ifs with h1 h2 h3 h4 h5
  all_goals simp_all

/-! ## Bias cache (src/core/daily_bias.py, get_bias and day stop) -/

/-- One bias_cache entry: the (bias, level50, trading_day, yesterday)
tuple the source stores per symbol. -/
structure CacheEntry where
  bias : Bias
  level50 : Option ℚ
  day : ℤ
  yesterday : Option Candle
deriving DecidableEq, Repr

/-- The result dict of DailyBiasService.get_bias; error models the
presence of the error key of the insufficient-data result. -/
structure GetBiasResult where
  bias : Bias
  level50 : Option ℚ
  yesterday : Option Candle
  trading_day : ℤ
  error : Bool
deriving DecidableEq, Repr

/-- The recompute path of get_bias after a cache miss: fewer than two D1
bars give the NEUTRAL error result and leave the cache untouched;
otherwise the second-to-last candle is analysed and cached. -/
def get_bias_compute (eps : ℚ) (cache : List (String × CacheEntry)) (current_day : ℤ)
    (symbol : String) (d1_bars : List Candle) :
    GetBiasResult × List (String × CacheEntry) :=
  if d1_bars.length < 2 then
    ({ bias := .neutral, level50 := none, yesterday := none,
       trading_day := current_day, error := true }, cache)
  else
    let yesterday := d1_bars.getD (d1_bars.length - 2) ⟨0, 0, 0, 0⟩
    let bl := compute_bias eps yesterday
    ({ bias := bl.1, level50 := bl.2, yesterday := some yesterday,
       trading_day := current_day, error := false },
      setKey cache symbol ⟨bl.1, bl.2, current_day, some yesterday⟩)

/-- DailyBiasService.get_bias: a cached entry for the current trading day
is returned as is (unless force_refresh), anything else goes through the
recompute path. -/
def get_bias (eps : ℚ) (cache : List (String × CacheEntry)) (current_day : ℤ)
    (symbol : String) (d1_bars : List Candle) (force_refresh : Bool) :
    GetBiasResult × List (String × CacheEntry) :=
  match (if force_refresh then none else lookupKey cache symbol) with
  | some e =>
      if e.day = current_day then
        ({ bias := e.bias, level50 := e.level50, yesterday := e.yesterday,
           trading_day := current_day, error := false }, cache)
      else get_bias_compute eps cache current_day symbol d1_bars
  | none => get_bias_compute eps cache current_day symbol d1_bars

/-- DailyBiasService.is_day_stop_triggered: reads the cached entry for the
symbol with no trading-day check; only a SELL bias with a level50 compares
the current low against the level. -/
def is_day_stop_triggered (cache : List (String × CacheEntry)) (symbol : String)
    (current_low : ℚ) : Bool :=
  match lookupKey cache symbol with
  | none => false
  | some e =>
      if e.bias ≠ Bias.sell then false
      else
        match e.level50 with
        | none => false
        | some lvl => current_low ≤ lvl

/-! ## Theorems for claims C5, C7, C10 -/

/-- C5: each order-manager operation (execute_buy, execute_sell,
close_position, sync_with_mt5) preserves the invariant that the tracked
open-position map holds at most one entry per (symbol, bot_type) key,
whatever the broker interactions return. -/
theorem c5_at_most_one_position_per_key
    (lot_size trade_target_usd : ℚ) (st : PosMap) (symbol bot_type : String)
    (tick : Option Tick) (info : Option SymbolInfoOM) (send : Option OrderSendResult)
    (mt5_has_ticket : ℕ → Bool) (tick2 : Option Tick) (send2 : Option OrderSendResult)
    (mt5_tickets : Option (List ℕ)) (h : KeysNodup st) :
    KeysNodup (execute_buy lot_size trade_target_usd st symbol bot_type tick info send) ∧
    KeysNodup (execute_sell lot_size trade_target_usd st symbol bot_type tick info send) ∧
    KeysNodup (close_position st symbol bot_type mt5_has_ticket tick2 send2) ∧
    KeysNodup (sync_with_mt5 st mt5_tickets) := by
  refine ⟨?_, ?_, ?_, ?_⟩
  · unfold execute_buy
    repeat' split
    all_goals first
      | exact h
      | exact keysNodup_setKey st _ _ h
  · unfold execute_sell
    repeat' split
    all_goals first
      | exact h
      | exact keysNodup_setKey st _ _ h
  · unfold close_position
    repeat' split
    all_goals first
      | exact h
      | exact keysNodup_delKey st _ h
  · unfold sync_with_mt5
    repeat' split
    all_goals first
      | exact h
      | exact keysNodup_filter st _ h

/-- A concrete tracked position. -/
def pos0 : Position :=
  { ticket := 7, ptype := "BUY", entry_price := 1, lot_size := 1, tp := 2, sl := 0 }

/-- A concrete one-entry open-position map. -/
def st0 : PosMap := [(("EURUSD", "pain_buy"), pos0)]

/-- Witness for C5 at a concrete one-entry map and concrete broker
returns. -/
theorem c5_at_most_one_position_per_key_witness :
    KeysNodup st0 ∧
    (KeysNodup (execute_buy 1 2 st0 "EURUSD" "pain_buy" (some ⟨1, 1⟩) (some ⟨1, 1⟩)
        (some ⟨TRADE_RETCODE_DONE, 8, 1⟩)) ∧
     KeysNodup (execute_sell 1 2 st0 "EURUSD" "pain_buy" (some ⟨1, 1⟩) (some ⟨1, 1⟩)
        (some ⟨TRADE_RETCODE_DONE, 8, 1⟩)) ∧
     KeysNodup (close_position st0 "EURUSD" "pain_buy" (fun _ => true) (some ⟨1, 1⟩)
        (some ⟨TRADE_RETCODE_DONE, 9, 1⟩)) ∧
     KeysNodup (sync_with_mt5 st0 (some []))) :=
  ⟨by decide,
   c5_at_most_one_position_per_key 1 2 st0 "EURUSD" "pain_buy" (some ⟨1, 1⟩) (some ⟨1, 1⟩)
     (some ⟨TRADE_RETCODE_DONE, 8, 1⟩) (fun _ => true) (some ⟨1, 1⟩)
     (some ⟨TRADE_RETCODE_DONE, 9, 1⟩) (some []) (by decide)⟩

/-- C7: with the early-exit flag enabled (its configured default), the
exit monitor closes a bot's position exactly when that position is a BUY
with the latest M5 close strictly below the M5 short EMA, or a SELL with
the latest M5 close strictly above it. -/
theorem c7_exit_monitor_iff (open_positions : List (String × Position)) (c p : ℚ)
    (bot : String) :
    bot ∈ check_exits true open_positions (some c) (some p) ↔
      ∃ position : Position, (bot, position) ∈ open_positions ∧
        ((position.ptype = "BUY" ∧ c < p) ∨ (position.ptype = "SELL" ∧ c > p)) := by
  cases open_positions with
  | nil => simp [check_exits]
  | cons hd tl =>
      simp only [check_exits, List.mem_map, List.mem_filter,
        check_m5_purple_break_isSome]
      constructor
      · rintro ⟨⟨b, position⟩, ⟨hmem, hcond⟩, rfl⟩
        exact ⟨position, hmem, hcond⟩
      · rintro ⟨position, hmem, hcond⟩
        exact ⟨(bot, position), ⟨hmem, hcond⟩, rfl⟩

/-- C10: when get_bias is called with fewer than two D1 bars and the cache
holds no entry for the current trading day, the result is the NEUTRAL
error record and the cache is left exactly as it was; in particular a
stale SELL entry from an earlier day keeps driving
is_day_stop_triggered. -/
theorem c10_insufficient_d1_keeps_stale_cache
    (eps : ℚ) (cache : List (String × CacheEntry)) (current_day : ℤ) (symbol : String)
    (d1_bars : List Candle) (hlen : d1_bars.length < 2)
    (hstale : ∀ e, lookupKey cache symbol = some e → e.day ≠ current_day) :
    get_bias eps cache current_day symbol d1_bars false =
      ({ bias := .neutral, level50 := none, yesterday := none,
         trading_day := current_day, error := true }, cache) ∧
    (∀ low : ℚ,
      is_day_stop_triggered (get_bias eps cache current_day symbol d1_bars false).2 symbol low =
        is_day_stop_triggered cache symbol low) ∧
    (∀ (e : CacheEntry) (lvl low : ℚ), lookupKey cache symbol = some e →
      e.bias = Bias.sell → e.level50 = some lvl →
      (is_day_stop_triggered (get_bias eps cache current_day symbol d1_bars false).2 symbol low
          = true ↔ low ≤ lvl)) := by
  have hmain : get_bias eps cache current_day symbol d1_bars false =
      ({ bias := .neutral, level50 := none, yesterday := none,
         trading_day := current_day, error := true }, cache) := by
    unfold get_bias
    cases hc : lookupKey cache symbol with
    | none => simp [get_bias_compute, if_pos hlen]
    | some e =>
        simp only [if_neg Bool.false_ne_true, hc]
        rw [if_neg (hstale e hc)]
        simp [get_bias_compute, if_pos hlen]
  refine ⟨hmain, fun low => by rw [hmain], ?_⟩
  intro e lvl low hc hsell hlvl
  rw [hmain]
  unfold is_day_stop_triggered
  rw [hc]
  simp [hsell, hlvl]

/-- A stale SELL cache entry from trading day 5. -/
def entry0 : CacheEntry :=
  { bias := Bias.sell, level50 := some 90, day := 5, yesterday := none }

/-- A cache holding only the stale entry for EURUSD. -/
def cache0 : List (String × CacheEntry) := [("EURUSD", entry0)]

/-- Witness for C10: on day 6 with no D1 data, the stale day-5 SELL entry
survives and still triggers the day stop for a low below its level50. -/
theorem c10_insufficient_d1_keeps_stale_cache_witness :
    ([] : List Candle).length < 2 ∧
    get_bias (1 / 20) cache0 6 "EURUSD" [] false =
      ({ bias := .neutral, level50 := none, yesterday := none,
         trading_day := 6, error := true }, cache0) ∧
    (is_day_stop_triggered (get_bias (1 / 20) cache0 6 "EURUSD" [] false).2 "EURUSD" 80 = true ↔
      (80 : ℚ) ≤ 90) :=
  ⟨by decide,
   (c10_insufficient_d1_keeps_stale_cache (1 / 20) cache0 6 "EURUSD" []
     (by decide)
     (by
       intro e he
       have hl : lookupKey cache0 "EURUSD" = some entry0 := by decide
       rw [hl] at he
       cases he
       decide)).1,
   (c10_insufficient_d1_keeps_stale_cache (1 / 20) cache0 6 "EURUSD" []
     (by decide)
     (by
       intro e he
       have hl : lookupKey cache0 "EURUSD" = some entry0 := by decide
       rw [hl] at he
       cases he
       decide)).2.2 entry0 90 80 (by decide) rfl rfl⟩

/-! ## Theorems for claims C1, C3, C8 -/

/-- C1: the claim states the bias rule of the spec: a candle whose lower
wick exceeds the upper wick by more than the epsilon factor is a BUY day
with no level50, and only a dominant upper wick gives a SELL day with
level50. The code does the opposite: on the candle
o = 1.1000, h = 1.1050, l = 1.0800, c = 1.1010 (scaled by 10000; the very
candle of the repository test src/test_daily_bias.py, whose expected
result is BUY), compute_bias returns SELL together with
level50 = min(o, c) - 0.5 * lower_wick = 10900. -/
theorem c1_compute_bias_long_lower_wick_gives_sell :
    compute_bias (1 / 20) ⟨11000, 11050, 10800, 11010⟩ = (Bias.sell, some 10900) := by
  norm_num [compute_bias]

/-- C3: the claim requires the EMA multiplier k = s / (p + 1) for the
configured smoothing s, not only for s = 2. calculate_ema hardcodes
k = 2 / (p + 1): on ten zero prices followed by 11 with period 10, the
seed is 0 and the next EMA value is 11 * (2 / 11) = 2, whereas the claim
with configured smoothing s = 1 requires 11 * (1 / 11) = 1. The code has
no smoothing parameter at all, although src/core/bot_engine.py and
src/test_ema_smoothing.py both pass one to the constructor. -/
theorem c3_calculate_ema_hardcodes_smoothing_two :
    calculate_ema (List.replicate 10 0 ++ [11]) 10 =
      List.replicate 9 (none : Option ℚ) ++ [some 0, some 2] ∧
    (2 : ℚ) ≠ 11 * (1 / (10 + 1)) := by
  constructor
  · norm_num [calculate_ema, emaFrom]
  · norm_num

/-- C8: the spread gate passes exactly when spread_points * point / 0.0001
is at most the configured max_spread_pips; with max = 2.0 pips,
spread = 30 points and point = 0.00001 the computed spread is 3.0 pips and
the gate fails, recording spread 3.0 against max 2.0 (the numbers the
reason string reports). -/
theorem c8_spread_gate_iff_and_example :
    (∀ mx sp pt : ℚ,
      ((check_spread mx (some (sp, pt))).allowed = true ↔ sp * pt / (1 / 10000) ≤ mx)) ∧
    check_spread 2 (some (30, 1 / 100000)) =
      { allowed := false, spread := some 3, maxPips := some 2 } := by
  constructor
  · intro mx sp pt
    simp [check_spread]
  · norm_num [check_spread]

end MT5
